import Mathlib

/-!
Shallow embedding of the `timeboost-contract` crate
(`src/deployer.rs`, `src/provider.rs`, `src/sol_types.rs`, `src/lib.rs`):
contract-deployment helpers and the pubsub event-stream pipeline,
with theorems settling the specification claims about them.

Asynchronous effects are made explicit: the chain provider is a function
from deployment requests to transaction outcomes, and the functions
additionally return the trace of requests they submitted, in order.
-/

namespace TimeboostContract

/-- Ethereum addresses, abstracted to natural numbers (only construction and
equality of addresses matter to this crate). -/
abbrev Address := Nat

/-- `alloy::contract::Error` as used by `deployer.rs`: the code constructs
only `ContractNotDeployed`; every other error of the underlying client is
propagated opaquely, modelled by `clientError` with an opaque payload. -/
inductive ContractError where
  | ContractNotDeployed
  | clientError (msg : String)
  deriving DecidableEq, Repr

/-- The part of a transaction receipt read by `deploy` in `deployer.rs`:
`gas_used` (logged) and the optional created-contract address. -/
structure Receipt where
  gas_used : Nat
  contract_address : Option Address
  deriving DecidableEq, Repr

/-- Observable outcome of one deployment transaction, as driven by
`deployer.rs`: `tx.send()` either fails or yields a pending transaction
with a hash, whose `get_receipt()` either fails or yields a receipt. -/
inductive TxOutcome where
  | sendFailed (e : ContractError)
  | pending (tx_hash : Nat) (receipt : Except ContractError Receipt)
  deriving Repr

/-- `deploy` from `deployer.rs` (lines 9-26): send the transaction, await
the receipt, and extract the created-contract address, failing with
`ContractNotDeployed` when the receipt carries none.  The `name` argument
is used by the Rust code only for logging. -/
def deploy (name : String) (tx : TxOutcome) : Except ContractError Address :=
  match tx with
  | .sendFailed e => .error e
  | .pending _ (.error e) => .error e
  | .pending _ (.ok receipt) =>
    match receipt.contract_address with
    | none => .error ContractError.ContractNotDeployed
    | some addr => .ok addr

/-- Constructor calldata produced by the generated bindings and passed to the
proxy deployment: `km.initialize(manager).calldata()` ABI-encodes an
`initialize(manager)` call.  The encoding itself lives in the generated
bindings; only which call is encoded matters here. -/
inductive CallData where
  | initData (manager : Address)
  deriving DecidableEq, Repr

/-- The two deployment transactions `deploy_key_manager_contract` can build:
the `KeyManager` implementation (`KeyManager::deploy_builder`), and the
`ERC1967Proxy` whose constructor arguments are the implementation address
and the encoded initializer (`ERC1967Proxy::deploy_builder`). -/
inductive DeployRequest where
  | keyManagerImpl
  | erc1967Proxy (impl_addr : Address) (init_data : CallData)
  deriving DecidableEq, Repr

/-- A chain provider, abstracted to the outcome it gives each deployment
transaction submitted to it. -/
def ChainProvider := DeployRequest → TxOutcome

/-- `deploy_key_manager_contract` from `deployer.rs` (lines 29-47):
deploy the implementation, then the proxy pointing at it with the encoded
`initialize(manager)` calldata, returning the proxy address.  The second
component records the deployment requests submitted, in order, which is
the effect trace of the Rust function. -/
def deploy_key_manager_contract (provider : ChainProvider) (manager : Address) :
    Except ContractError Address × List DeployRequest :=
  let req1 := DeployRequest.keyManagerImpl
  match deploy "KeyManager" (provider req1) with
  | .error e => (.error e, [req1])
  | .ok impl_addr =>
    let init_data := CallData.initData manager
    let req2 := DeployRequest.erc1967Proxy impl_addr init_data
    match deploy "KeyManagerProxy" (provider req2) with
    | .error e => (.error e, [req1, req2])
    | .ok proxy_addr => (.ok proxy_addr, [req1, req2])

/-- A provider that answers both deployment requests with mined receipts
carrying distinct created-contract addresses; used to witness claims. -/
def providerOk : ChainProvider := fun req =>
  match req with
  | .keyManagerImpl =>
    TxOutcome.pending 1 (.ok { gas_used := 21000, contract_address := some 100 })
  | .erc1967Proxy _ _ =>
    TxOutcome.pending 2 (.ok { gas_used := 42000, contract_address := some 200 })

/-- A provider whose implementation deployment fails at `send`; used to
witness the error-propagation claims. -/
def providerImplSendFails : ChainProvider := fun req =>
  match req with
  | .keyManagerImpl => TxOutcome.sendFailed (ContractError.clientError "refused")
  | .erc1967Proxy _ _ =>
    TxOutcome.pending 2 (.ok { gas_used := 42000, contract_address := some 200 })

/-- Claim C2: when the deployment transaction's receipt is obtained but
contains no created-contract address, `deploy` fails with
`ContractNotDeployed`; when the receipt does contain a contract address,
`deploy` returns exactly that address. -/
theorem c2_deploy_receipt_address
    (name : String) (tx_hash : Nat) (receipt : Receipt) :
    (receipt.contract_address = none →
      deploy name (TxOutcome.pending tx_hash (.ok receipt)) =
        .error ContractError.ContractNotDeployed) ∧
    (∀ addr : Address, receipt.contract_address = some addr →
      deploy name (TxOutcome.pending tx_hash (.ok receipt)) = .ok addr) := by
  constructor
  · intro hnone
    simp [deploy, hnone]
  · intro addr hsome
    simp [deploy, hsome]

/-- Witness for C2 at concrete receipts: an address-free receipt yields
`ContractNotDeployed`, and a receipt with address `7` yields `7`. -/
theorem c2_deploy_receipt_address_witness :
    deploy "KeyManager"
        (TxOutcome.pending 1 (.ok { gas_used := 0, contract_address := none })) =
      .error ContractError.ContractNotDeployed ∧
    deploy "KeyManager"
        (TxOutcome.pending 1 (.ok { gas_used := 0, contract_address := some 7 })) =
      .ok 7 :=
  ⟨(c2_deploy_receipt_address "KeyManager" 1
      { gas_used := 0, contract_address := none }).1 rfl,
   (c2_deploy_receipt_address "KeyManager" 1
      { gas_used := 0, contract_address := some 7 }).2 7 rfl⟩

/-- `deploy` succeeds with `addr` exactly when the transaction was mined with
a receipt whose created-contract address is `addr`. -/
theorem deploy_ok_eq (name : String) (tx : TxOutcome) (addr : Address) :
    deploy name tx = .ok addr ↔
    ∃ tx_hash receipt, tx = TxOutcome.pending tx_hash (.ok receipt) ∧
      receipt.contract_address = some addr := by
  cases tx with
  | sendFailed e => simp [deploy]
  | pending h r =>
    cases r with
    | error e => simp [deploy]
    | ok receipt =>
      cases hc : receipt.contract_address with
      | none => simp [deploy, hc]
      | some a =>
        simp only [deploy, hc]
        constructor
        · rintro h1
          cases h1
          exact ⟨h, receipt, rfl, hc⟩
        · rintro ⟨t, r, hr, hca⟩
          cases hr
          rw [hc] at hca
          exact congrArg Except.ok (Option.some.inj hca)

/-- Claim C1: a successful `deploy_key_manager_contract` returns the address
extracted from the proxy deployment's receipt, the second deployment
submitted, and not the implementation contract's address. -/
theorem c1_returns_proxy_address (provider : ChainProvider) (manager addr : Address)
    (h : (deploy_key_manager_contract provider manager).fst = .ok addr) :
    ∃ impl_addr tx_hash receipt,
      provider (DeployRequest.erc1967Proxy impl_addr (CallData.initData manager)) =
        TxOutcome.pending tx_hash (.ok receipt) ∧
      receipt.contract_address = some addr ∧
      (deploy_key_manager_contract provider manager).snd =
        [DeployRequest.keyManagerImpl,
         DeployRequest.erc1967Proxy impl_addr (CallData.initData manager)] := by
  cases hd1 : deploy "KeyManager" (provider DeployRequest.keyManagerImpl) with
  | error e => simp [deploy_key_manager_contract, hd1] at h
  | ok impl_addr =>
    cases hd2 : deploy "KeyManagerProxy"
        (provider (DeployRequest.erc1967Proxy impl_addr (CallData.initData manager))) with
    | error e => simp [deploy_key_manager_contract, hd1, hd2] at h
    | ok proxy_addr =>
      have haddr : proxy_addr = addr := by
        simpa [deploy_key_manager_contract, hd1, hd2] using h
      obtain ⟨tx_hash, receipt, hreq, hca⟩ :=
        (deploy_ok_eq "KeyManagerProxy" _ proxy_addr).mp hd2
      exact ⟨impl_addr, tx_hash, receipt, hreq, haddr ▸ hca,
        by simp [deploy_key_manager_contract, hd1, hd2]⟩

/-- Witness for C1: on a provider answering both deployments with receipts
for addresses 100 (implementation) and 200 (proxy), the call returns 200,
the proxy receipt's address. -/
theorem c1_returns_proxy_address_witness :
    ∃ impl_addr tx_hash receipt,
      providerOk (DeployRequest.erc1967Proxy impl_addr (CallData.initData 7)) =
        TxOutcome.pending tx_hash (.ok receipt) ∧
      receipt.contract_address = some 200 ∧
      (deploy_key_manager_contract providerOk 7).snd =
        [DeployRequest.keyManagerImpl,
         DeployRequest.erc1967Proxy impl_addr (CallData.initData 7)] :=
  c1_returns_proxy_address providerOk 7 200 rfl

/-- Claim C3: `deploy_key_manager_contract` submits exactly two deployments
in order, the implementation and then the proxy whose constructor arguments
are the implementation address and the encoded `initialize(manager)` call;
an error from step 1 is returned without the proxy deployment ever being
submitted. -/
theorem c3_two_sequential_deployments (provider : ChainProvider) (manager : Address) :
    (∀ e, deploy "KeyManager" (provider DeployRequest.keyManagerImpl) = .error e →
      deploy_key_manager_contract provider manager =
        (.error e, [DeployRequest.keyManagerImpl])) ∧
    (∀ impl_addr,
      deploy "KeyManager" (provider DeployRequest.keyManagerImpl) = .ok impl_addr →
      (deploy_key_manager_contract provider manager).snd =
        [DeployRequest.keyManagerImpl,
         DeployRequest.erc1967Proxy impl_addr (CallData.initData manager)]) := by
  constructor
  · intro e he
    simp [deploy_key_manager_contract, he]
  · intro impl_addr hi
    cases hd2 : deploy "KeyManagerProxy"
        (provider (DeployRequest.erc1967Proxy impl_addr (CallData.initData manager))) with
    | error e => simp [deploy_key_manager_contract, hi, hd2]
    | ok proxy_addr => simp [deploy_key_manager_contract, hi, hd2]

/-- Witness for C3: a failing step 1 yields the error with only the first
request submitted; a succeeding step 1 yields both requests in order. -/
theorem c3_two_sequential_deployments_witness :
    deploy_key_manager_contract providerImplSendFails 7 =
      (.error (ContractError.clientError "refused"), [DeployRequest.keyManagerImpl]) ∧
    (deploy_key_manager_contract providerOk 7).snd =
      [DeployRequest.keyManagerImpl,
       DeployRequest.erc1967Proxy 100 (CallData.initData 7)] :=
  ⟨(c3_two_sequential_deployments providerImplSendFails 7).1
      (ContractError.clientError "refused") rfl,
   (c3_two_sequential_deployments providerOk 7).2 100 rfl⟩

/-- Claim C7: neither `deploy` nor `deploy_key_manager_contract` retries a
transaction: a `send` or receipt error is returned unchanged the first time
it occurs, and the request trace never repeats a request. -/
theorem c7_no_retry :
    (∀ name e, deploy name (TxOutcome.sendFailed e) = .error e) ∧
    (∀ name tx_hash e,
      deploy name (TxOutcome.pending tx_hash (.error e)) = .error e) ∧
    (∀ provider manager,
      (deploy_key_manager_contract provider manager).snd.Nodup ∧
      (∀ e, deploy "KeyManager" (provider DeployRequest.keyManagerImpl) = .error e →
        (deploy_key_manager_contract provider manager).fst = .error e) ∧
      (∀ impl_addr e,
        deploy "KeyManager" (provider DeployRequest.keyManagerImpl) = .ok impl_addr →
        deploy "KeyManagerProxy"
            (provider (DeployRequest.erc1967Proxy impl_addr (CallData.initData manager))) =
          .error e →
        (deploy_key_manager_contract provider manager).fst = .error e)) := by
  refine ⟨fun name e => rfl, fun name tx_hash e => rfl, fun provider manager => ?_⟩
  refine ⟨?_, fun e he => by simp [deploy_key_manager_contract, he], ?_⟩
  · cases hd1 : deploy "KeyManager" (provider DeployRequest.keyManagerImpl) with
    | error e => simp [deploy_key_manager_contract, hd1]
    | ok impl_addr =>
      cases hd2 : deploy "KeyManagerProxy"
          (provider (DeployRequest.erc1967Proxy impl_addr (CallData.initData manager))) with
      | error e => simp [deploy_key_manager_contract, hd1, hd2]
      | ok proxy_addr => simp [deploy_key_manager_contract, hd1, hd2]
  · intro impl_addr e h1 h2
    simp [deploy_key_manager_contract, h1, h2]

/-- Witness for C7: a `send` failure of the implementation deployment is
returned unchanged, and the request trace has no repeats. -/
theorem c7_no_retry_witness :
    deploy "KeyManager" (TxOutcome.sendFailed (ContractError.clientError "refused")) =
      .error (ContractError.clientError "refused") ∧
    (deploy_key_manager_contract providerImplSendFails 7).snd.Nodup ∧
    (deploy_key_manager_contract providerImplSendFails 7).fst =
      .error (ContractError.clientError "refused") :=
  ⟨c7_no_retry.1 "KeyManager" (ContractError.clientError "refused"),
   (c7_no_retry.2.2 providerImplSendFails 7).1,
   (c7_no_retry.2.2 providerImplSendFails 7).2.1 (ContractError.clientError "refused") rfl⟩

/-- alloy's `BlockNumberOrTag` as consumed by `provider.rs`: a concrete
block number or a symbolic tag; this crate passes `Latest` or numbers. -/
inductive BlockNumberOrTag where
  | Number (n : Nat)
  | Latest
  | Earliest
  | Pending
  | Safe
  | Finalized
  deriving DecidableEq, Repr

/-- The filter criteria `event_stream` can set on alloy's `Filter`:
a contract address, an event signature, a from-block and a to-block;
`Filter::new()` leaves all of them unset. -/
structure Filter where
  address : Option Address := none
  event : Option String := none
  from_block : Option BlockNumberOrTag := none
  to_block : Option BlockNumberOrTag := none
  deriving DecidableEq, Repr

/-- `Filter::new()`: the empty filter. -/
def Filter.new : Filter := {}

/-- The `Filter::address` builder: constrain the filter to one contract. -/
def Filter.withAddress (f : Filter) (a : Address) : Filter :=
  { f with address := some a }

/-- The `Filter::event` builder: constrain the filter to one event
signature. -/
def Filter.withEvent (f : Filter) (sig : String) : Filter :=
  { f with event := some sig }

/-- The `Filter::from_block` builder: set the starting block reference. -/
def Filter.withFromBlock (f : Filter) (b : BlockNumberOrTag) : Filter :=
  { f with from_block := some b }

/-- The per-entry validation step of `event_stream` (`provider.rs` lines
130-138): `filter_map` applying `log.log_decode_validate::<E>()` to each
raw entry, keeping decoded events and dropping (after logging) each entry
whose decoding fails.  `decode` stands for `log_decode_validate::<E>`. -/
def event_stream_validate {R E : Type} (decode : R → Except String E)
    (logs : List R) : List E :=
  logs.filterMap (fun log =>
    match decode log with
    | .ok event => some event
    | .error _ => none)

/-- `PubSubProvider::event_stream` (`provider.rs` lines 111-141): build the
filter from the contract address, `E::SIGNATURE` (`sig`) and `from_block`,
subscribe, and validate each delivered entry.  `subscribe_logs` stands for
the underlying subscription, mapping the filter it is registered with to
the raw entries it delivers (or a subscription error).  The first component
records the filter the function subscribed with, which is its effect
trace. -/
def event_stream {R E : Type} (sig : String) (decode : R → Except String E)
    (subscribe_logs : Filter → Except String (List R))
    (contract : Address) (from_block : BlockNumberOrTag) :
    Filter × Except String (List E) :=
  let filter := ((Filter.new.withAddress contract).withEvent sig).withFromBlock from_block
  (filter,
    match subscribe_logs filter with
    | .error err => .error err
    | .ok events => .ok (event_stream_validate decode events))

/-- Decoder used by witnesses: even numbers decode to themselves, odd
numbers fail. -/
def decodeEven : Nat → Except String Nat := fun n =>
  if n % 2 = 0 then .ok n else .error "odd"

/-- Subscription used by the C4 witness: delivers a failing entry followed
by a valid one. -/
def subLogsBadThenGood : Filter → Except String (List Nat) := fun _ => .ok [1, 2]

/-- Subscription used by the C5 witness: delivers valid, invalid, valid. -/
def subLogsThree : Filter → Except String (List Nat) := fun _ => .ok [2, 1, 4]

/-- Claim C4: the stream produced by `event_stream` yields exactly the
entries that decode and validate successfully, dropping each failing entry
without terminating the stream, so a valid entry following an invalid one
is still delivered. -/
theorem c4_invalid_entry_dropped {R E : Type} (sig : String)
    (decode : R → Except String E)
    (subscribe_logs : Filter → Except String (List R))
    (contract : Address) (from_block : BlockNumberOrTag)
    (pre post : List R) (bad good : R) (err : String) (e : E)
    (hsub : subscribe_logs
        (((Filter.new.withAddress contract).withEvent sig).withFromBlock from_block) =
      .ok (pre ++ bad :: good :: post))
    (hbad : decode bad = .error err) (hgood : decode good = .ok e) :
    (event_stream sig decode subscribe_logs contract from_block).snd =
      .ok (event_stream_validate decode pre ++
            e :: event_stream_validate decode post) ∧
    ∀ (logs : List R) (ev : E),
      ev ∈ event_stream_validate decode logs ↔ ∃ log ∈ logs, decode log = .ok ev := by
  constructor
  · simp [event_stream, hsub, event_stream_validate, List.filterMap_append,
      List.filterMap_cons, hbad, hgood]
  · intro logs ev
    simp only [event_stream_validate, List.mem_filterMap]
    constructor
    · rintro ⟨log, hmem, hsome⟩
      refine ⟨log, hmem, ?_⟩
      cases hd : decode log with
      | ok x =>
        rw [hd] at hsome
        simp only [Option.some.injEq] at hsome
        subst hsome
        rfl
      | error s =>
        rw [hd] at hsome
        simp at hsome
    · rintro ⟨log, hmem, hok⟩
      exact ⟨log, hmem, by rw [hok]⟩

/-- Witness for C4: on raw entries `[1, 2]` where `1` fails decoding and
`2` decodes to itself, the stream is `[2]`: the valid entry after the
invalid one is delivered, and membership matches successful decoding. -/
theorem c4_invalid_entry_dropped_witness :
    (event_stream "CommitteeCreated" decodeEven subLogsBadThenGood 5
        BlockNumberOrTag.Latest).snd =
      .ok (event_stream_validate decodeEven [] ++
            2 :: event_stream_validate decodeEven []) ∧
    (2 ∈ event_stream_validate decodeEven [1, 2] ↔
      ∃ log ∈ [1, 2], decodeEven log = .ok 2) :=
  ⟨(c4_invalid_entry_dropped "CommitteeCreated" decodeEven subLogsBadThenGood 5
      BlockNumberOrTag.Latest [] [] 1 2 "odd" 2 rfl rfl rfl).1,
   (c4_invalid_entry_dropped "CommitteeCreated" decodeEven subLogsBadThenGood 5
      BlockNumberOrTag.Latest [] [] 1 2 "odd" 2 rfl rfl rfl).2 [1, 2] 2⟩

/-- Claim C5: the decoded events are an order-preserving subsequence of the
raw stream: any two raw entries that both decode successfully appear in the
output in the relative order the subscription delivered them. -/
theorem c5_order_preserving (sig : String) {R E : Type}
    (decode : R → Except String E)
    (subscribe_logs : Filter → Except String (List R))
    (contract : Address) (from_block : BlockNumberOrTag)
    (pre mid post : List R) (a b : R) (ea eb : E)
    (hsub : subscribe_logs
        (((Filter.new.withAddress contract).withEvent sig).withFromBlock from_block) =
      .ok (pre ++ a :: mid ++ b :: post))
    (ha : decode a = .ok ea) (hb : decode b = .ok eb) :
    (event_stream sig decode subscribe_logs contract from_block).snd =
      .ok (event_stream_validate decode pre ++
            ea :: event_stream_validate decode mid ++
            eb :: event_stream_validate decode post) := by
  simp [event_stream, hsub, event_stream_validate, List.filterMap_append,
    List.filterMap_cons, ha, hb]

/-- Witness for C5: on raw entries `[2, 1, 4]` the two decodable entries
`2` and `4` are yielded in that order around the dropped `1`. -/
theorem c5_order_preserving_witness :
    (event_stream "CommitteeCreated" decodeEven subLogsThree 5
        BlockNumberOrTag.Latest).snd =
      .ok (event_stream_validate decodeEven [] ++
            2 :: event_stream_validate decodeEven [1] ++
            4 :: event_stream_validate decodeEven []) :=
  c5_order_preserving "CommitteeCreated" decodeEven subLogsThree 5
    BlockNumberOrTag.Latest [] [1] [] 2 4 2 4 rfl rfl rfl

/-- Claim C8: `event_stream` subscribes with a filter constrained to exactly
the given contract address, the event signature and the given from-block,
and nothing else (the to-block stays unset). -/
theorem c8_filter_exactly_three_criteria {R E : Type} (sig : String)
    (decode : R → Except String E)
    (subscribe_logs : Filter → Except String (List R))
    (contract : Address) (from_block : BlockNumberOrTag) :
    (event_stream sig decode subscribe_logs contract from_block).fst =
      { address := some contract, event := some sig,
        from_block := some from_block, to_block := none } := rfl

/-- `std::time::Duration` as used by `provider.rs`: only whole seconds are
ever constructed (`Duration::from_secs(5)`). -/
structure Duration where
  secs : Nat
  deriving DecidableEq, Repr

/-- `Duration::from_secs`. -/
def Duration.from_secs (secs : Nat) : Duration := { secs := secs }

/-- Endpoint URLs, abstracted to strings (only carried, never parsed by
this crate). -/
abbrev Url := String

/-- `PubSubProviderConfig` from `provider.rs` (lines 64-70): endpoint URL,
maximum reconnect retries, retry interval. -/
structure PubSubProviderConfig where
  url : Url
  max_retries : Nat
  retry_interval : Duration
  deriving DecidableEq, Repr

/-- `PubSubProviderConfig::new` from `provider.rs` (lines 72-80). -/
def PubSubProviderConfig.new (url : Url) : PubSubProviderConfig :=
  { url := url, max_retries := 12, retry_interval := Duration.from_secs 5 }

/-- Claim C10: `PubSubProviderConfig::new(u)` keeps the URL `u` and fills in
the defaults of 12 maximum retries and a 5-second retry interval. -/
theorem c10_config_defaults (url : Url) :
    (PubSubProviderConfig.new url).url = url ∧
    (PubSubProviderConfig.new url).max_retries = 12 ∧
    (PubSubProviderConfig.new url).retry_interval = Duration.from_secs 5 :=
  ⟨rfl, rfl, rfl⟩

/-- `KeyManager.CommitteeMember` (`CommitteeMemberSol` in `sol_types.rs`):
a participant's public material; key blobs are byte lists, equality is
byte-wise. -/
structure CommitteeMember where
  sigKey : List Nat
  dhKey : List Nat
  dkgKey : List Nat
  networkAddress : String
  batchPosterAddress : String
  sigKeyAddress : Address
  deriving DecidableEq, Repr

/-- `KeyManager.Committee` (`CommitteeSol` in `sol_types.rs`): an identified,
time-scoped member set. -/
structure Committee where
  id : Nat
  registeredBlockNumber : Nat
  effectiveTimestamp : Nat
  members : List CommitteeMember
  deriving DecidableEq, Repr

/-- Modelled from the spec: the KeyManager contract's committee registry
state.  The Solidity contract itself is not under `src/` (only its
generated bindings are re-exported by `sol_types.rs` and its behavior
exercised by the tests in `deployer.rs`), so its state is a manager address
plus the list of registered committees, per spec section 3. -/
structure KeyManagerState where
  manager : Address
  committees : List Committee
  deriving DecidableEq, Repr

/-- Modelled from the spec: `initialize(manager)` starts an empty registry
managed by `manager`. -/
def KeyManagerState.initState (manager : Address) : KeyManagerState :=
  { manager := manager, committees := [] }

/-- Modelled from the spec: `setNextCommittee(timestamp, members)`, landing
in block `blockNumber`, registers a committee under the next dense id (the
number of committees registered so far, since ids are dense and increasing
from 0), recording that block number and the supplied timestamp and
members. -/
def setNextCommittee (st : KeyManagerState) (blockNumber : Nat)
    (effectiveTimestamp : Nat) (members : List CommitteeMember) :
    KeyManagerState :=
  { st with
    committees := st.committees ++
      [{ id := st.committees.length, registeredBlockNumber := blockNumber,
         effectiveTimestamp := effectiveTimestamp, members := members }] }

/-- Modelled from the spec: `getCommitteeById(i)` retrieves the committee
with id `i` when one has been registered. -/
def getCommitteeById (st : KeyManagerState) (i : Nat) : Option Committee :=
  st.committees[i]?

/-- One `setNextCommittee` submission: the block its transaction lands in
and the supplied timestamp and member list. -/
structure SetNextCommitteeCall where
  blockNumber : Nat
  effectiveTimestamp : Nat
  members : List CommitteeMember
  deriving DecidableEq, Repr

/-- Run a sequence of `setNextCommittee` submissions in order. -/
def runSetNextCommittee (st : KeyManagerState)
    (calls : List SetNextCommitteeCall) : KeyManagerState :=
  calls.foldl
    (fun s c => setNextCommittee s c.blockNumber c.effectiveTimestamp c.members)
    st

/-- The committees a sequence of calls registers when ids start at `n`. -/
def committeesFrom (n : Nat) : List SetNextCommitteeCall → List Committee
  | [] => []
  | c :: cs =>
    { id := n, registeredBlockNumber := c.blockNumber,
      effectiveTimestamp := c.effectiveTimestamp, members := c.members } ::
    committeesFrom (n + 1) cs

/-- Running calls appends their committees, with ids continuing from the
current registry size. -/
theorem runSetNextCommittee_committees (calls : List SetNextCommitteeCall)
    (st : KeyManagerState) :
    (runSetNextCommittee st calls).committees =
      st.committees ++ committeesFrom st.committees.length calls := by
  induction calls generalizing st with
  | nil => simp [runSetNextCommittee, committeesFrom]
  | cons c cs ih =>
    have h1 : runSetNextCommittee st (c :: cs) =
        runSetNextCommittee
          (setNextCommittee st c.blockNumber c.effectiveTimestamp c.members) cs :=
      rfl
    rw [h1, ih]
    simp [setNextCommittee, committeesFrom]

/-- Indexing into the committees registered by a call sequence. -/
theorem committeesFrom_idx (calls : List SetNextCommitteeCall) (n i : Nat)
    (c : SetNextCommitteeCall) (h : calls[i]? = some c) :
    (committeesFrom n calls)[i]? =
      some { id := n + i, registeredBlockNumber := c.blockNumber,
             effectiveTimestamp := c.effectiveTimestamp,
             members := c.members } := by
  induction calls generalizing n i with
  | nil => simp at h
  | cons c0 cs ih =>
    cases i with
    | zero =>
      simp at h
      subst h
      simp [committeesFrom]
    | succ j =>
      simp only [List.getElem?_cons_succ] at h
      have := ih (n + 1) j h
      simp only [committeesFrom, List.getElem?_cons_succ]
      rw [this]
      have e : n + 1 + j = n + (j + 1) := by omega
      rw [e]

/-- `committeesFrom` registers one committee per call. -/
theorem committeesFrom_length (calls : List SetNextCommitteeCall) (n : Nat) :
    (committeesFrom n calls).length = calls.length := by
  induction calls generalizing n with
  | nil => simp [committeesFrom]
  | cons c cs ih =>
    simp [committeesFrom, ih]

/-- Claim C6: committee ids are dense and increasing from 0: after any
sequence of `setNextCommittee` calls on a fresh registry, the committee
with id `i` exists exactly when there were more than `i` calls, and it
carries id `i` together with the block number, timestamp and member list
of the `(i+1)`-th call. -/
theorem c6_dense_ids_from_zero (manager : Address)
    (calls : List SetNextCommitteeCall) :
    (∀ i c, calls[i]? = some c →
      getCommitteeById (runSetNextCommittee (KeyManagerState.initState manager)
          calls) i =
        some { id := i, registeredBlockNumber := c.blockNumber,
               effectiveTimestamp := c.effectiveTimestamp,
               members := c.members }) ∧
    (∀ i, calls.length ≤ i →
      getCommitteeById (runSetNextCommittee (KeyManagerState.initState manager)
          calls) i = none) := by
  constructor
  · intro i c h
    unfold getCommitteeById
    rw [runSetNextCommittee_committees]
    have := committeesFrom_idx calls 0 i c h
    simpa [KeyManagerState.initState] using this
  · intro i hlen
    unfold getCommitteeById
    rw [runSetNextCommittee_committees]
    simp [KeyManagerState.initState]
    rw [committeesFrom_length]
    exact hlen

/-- Witness for C6: two concrete `setNextCommittee` calls yield committees
with ids 0 and 1 carrying each call's data, and no committee with id 2. -/
theorem c6_dense_ids_from_zero_witness :
    getCommitteeById
        (runSetNextCommittee (KeyManagerState.initState 9)
          [{ blockNumber := 3, effectiveTimestamp := 11, members := [] },
           { blockNumber := 4, effectiveTimestamp := 22, members := [] }]) 1 =
      some { id := 1, registeredBlockNumber := 4, effectiveTimestamp := 22,
             members := [] } ∧
    getCommitteeById
        (runSetNextCommittee (KeyManagerState.initState 9)
          [{ blockNumber := 3, effectiveTimestamp := 11, members := [] },
           { blockNumber := 4, effectiveTimestamp := 22, members := [] }]) 2 =
      none :=
  ⟨(c6_dense_ids_from_zero 9
      [{ blockNumber := 3, effectiveTimestamp := 11, members := [] },
       { blockNumber := 4, effectiveTimestamp := 22, members := [] }]).1 1
      { blockNumber := 4, effectiveTimestamp := 22, members := [] } rfl,
   (c6_dense_ids_from_zero 9
      [{ blockNumber := 3, effectiveTimestamp := 11, members := [] },
       { blockNumber := 4, effectiveTimestamp := 22, members := [] }]).2 2
      (by decide)⟩

end TimeboostContract
